import Mathlib

/-!
Verification of the osu!ctb difficulty ("stars") pipeline of this repository.

The embedding translates `src/fruits/src/lib.rs` into Lean. Machine floats
(`f32`) are modelled as rationals `ℚ`; Rust panics (index out of bounds,
`unwrap` on `None`, and the fail-fast geometry errors) are modelled as the
`Except Panic` monad. The companion modules referenced by `lib.rs`
(`catch_object.rs`, `curve.rs`, `difficulty_object.rs`, `movement.rs`, and the
`parse` crate) are not present under `src/`; following the specification they
are either modelled from the spec's words (marked `Modelled from the spec:`)
or, where the spec gives no formula at all, abstracted into the `Params`
record so that every theorem holds for any instantiation of the missing code.
-/

namespace Fruits

/-- Constant from lib.rs line 16: the strain section length in ms. -/
def SECTION_LENGTH : ℚ := 750

/-- Constant from lib.rs line 17: final star scaling factor 0.153. -/
def STAR_SCALING_FACTOR : ℚ := 153 / 1000

/-- Constant from lib.rs line 19: catch range tolerance 0.8. -/
def ALLOWED_CATCH_RANGE : ℚ := 4 / 5

/-- Constant from lib.rs line 20: catcher size 106.75. -/
def CATCHER_SIZE : ℚ := 427 / 4

/-- Modelled from the spec: 2D position of the `parse` crate (absent from src/). -/
structure Point where
  x : ℚ
  y : ℚ
deriving DecidableEq

instance : Inhabited Point := ⟨⟨0, 0⟩⟩

/-- Modelled from the spec: a timing point (time, beat length) of the `parse`
crate (absent from src/), spec section 6. -/
structure TimingPoint where
  time : ℚ
  beat_len : ℚ
deriving DecidableEq

instance : Inhabited TimingPoint := ⟨⟨0, 0⟩⟩

/-- Modelled from the spec: a difficulty point (time, speed multiplier) of the
`parse` crate (absent from src/), spec section 6. -/
structure DifficultyPoint where
  time : ℚ
  speed_multiplier : ℚ
deriving DecidableEq

instance : Inhabited DifficultyPoint := ⟨⟨0, 0⟩⟩

/-- Slider path kind of the `parse` crate, as matched in lib.rs lines 119-124. -/
inductive PathType
  | Linear
  | Bezier
  | Catmull
  | PerfectCurve
deriving DecidableEq

/-- Hit object kinds of the `parse` crate, as matched in lib.rs lines 46-182. -/
inductive HitObjectKind
  | Circle
  | Slider (pixel_len : ℚ) (repeats : Nat) (curve_points : List Point)
      (path_type : PathType)
  | Spinner
  | Hold
deriving DecidableEq

/-- Modelled from the spec: a parsed hit object (position, start time, kind). -/
structure HitObject where
  pos : Point
  start_time : ℚ
  kind : HitObjectKind
deriving DecidableEq

instance : Inhabited HitObject := ⟨⟨⟨0, 0⟩, 0, HitObjectKind.Circle⟩⟩

/-- Modelled from the spec: the parsed beatmap fields that lib.rs reads
(`hit_objects`, `timing_points`, `difficulty_points`, `sv`, `tick_rate`,
`cs`, `version`). -/
structure Beatmap where
  hit_objects : List HitObject
  timing_points : List TimingPoint
  difficulty_points : List DifficultyPoint
  sv : ℚ
  tick_rate : ℚ
  cs : ℚ
  version : Nat
deriving DecidableEq

/-- Modelled from the spec: the modifier set (spec section 6) exposes a
hard-rock flag, a clock rate, and a uniform circle-size transform. -/
structure Mods where
  hr : Bool
  clock_rate : ℚ
  apply_cs : ℚ → ℚ

/-- The empty modifier set: no HR, clock rate 1, identity CS transform. -/
def noMods : Mods := ⟨false, 1, id⟩

/-- Modelled from the spec: the map attributes after applying mods
(`map.attributes().mods(mods)` in lib.rs line 35); only `cs` and
`clock_rate` are read by the core. -/
structure BeatmapAttributes where
  cs : ℚ
  clock_rate : ℚ

/-- Modelled from the spec: attribute computation of the `parse` crate. -/
def Beatmap.attributes_mods (map : Beatmap) (mods : Mods) : BeatmapAttributes :=
  ⟨mods.apply_cs map.cs, mods.clock_rate⟩

/-- The ways the Rust code can fail at runtime: an out-of-bounds index
(slice indexing panic), an `unwrap` of `None` (lib.rs lines 198-199), and
the fail-fast rejection of a shape with fewer than 2 control points
(spec section 7, MalformedGeometry). -/
inductive Panic
  | indexOOB
  | unwrapNone
  | tooFewPoints
deriving DecidableEq

/-- Checked list indexing: Rust slice indexing panics out of bounds. -/
def idx {α : Type} (l : List α) (n : Nat) : Except Panic α :=
  match l.get? n with
  | some a => Except.ok a
  | none => Except.error Panic.indexOOB

/-- lib.rs line 264-268: `calculate_catch_width`:
`scale = 1 - 0.7 * (cs - 5) / 5; CATCHER_SIZE * scale.abs() * ALLOWED_CATCH_RANGE`. -/
def calculate_catch_width (cs : ℚ) : ℚ :=
  CATCHER_SIZE * |1 - (7 / 10) * (cs - 5) / 5| * ALLOWED_CATCH_RANGE

/-! ## Binary search (lib.rs lines 22-26)

The `binary_search!` macro calls Rust's `slice::binary_search_by` with the
comparator `p.time.partial_cmp(&target)`. The loop below is the standard
library's algorithm specialized to that comparator (`ℚ` has no NaN, so the
`unwrap_or(Equal)` branch is dead): result `Except.ok i` is Rust `Ok(i)`
(exact match) and `Except.error i` is Rust `Err(i)` (insertion point). -/

/-- Rust `slice::binary_search_by` loop over the list of point times. -/
def binary_search_go (times : List ℚ) (target : ℚ) (left right : Nat) :
    Except Nat Nat :=
  if h : left < right then
    if times.getD (left + (right - left) / 2) 0 < target then
      binary_search_go times target (left + (right - left) / 2 + 1) right
    else if target < times.getD (left + (right - left) / 2) 0 then
      binary_search_go times target left (left + (right - left) / 2)
    else
      Except.ok (left + (right - left) / 2)
  else
    Except.error left
termination_by right - left
decreasing_by
  all_goals omega

/-- Rust `slice::binary_search_by` over a full slice of times. -/
def binary_search (times : List ℚ) (target : ℚ) : Except Nat Nat :=
  binary_search_go times target 0 times.length

/-- Shared shape of the two lookups in lib.rs lines 69-95: `Ok(idx)` uses
index `idx`, `Err(0)` means no applicable point, `Err(idx)` uses `idx - 1`. -/
def lookup_point (times : List ℚ) (t : ℚ) : Option Nat :=
  match binary_search times t with
  | Except.ok i => some i
  | Except.error 0 => none
  | Except.error (i + 1) => some i

/-- lib.rs lines 69-81: the applicable timing point of a slider start time,
as the pair `(beat_len, timing point time)`, defaulting to `(1000, 0)`. -/
def lookup_timing (map : Beatmap) (t : ℚ) : ℚ × ℚ :=
  match lookup_point (map.timing_points.map TimingPoint.time) t with
  | some i =>
      ((map.timing_points.getD i default).beat_len,
       (map.timing_points.getD i default).time)
  | none => (1000, 0)

/-- lib.rs lines 83-95: the applicable difficulty point of a slider start
time, as the pair `(speed_multiplier, difficulty point time)`, defaulting to
`(1, 0)`. -/
def lookup_difficulty (map : Beatmap) (t : ℚ) : ℚ × ℚ :=
  match lookup_point (map.difficulty_points.map DifficultyPoint.time) t with
  | some i =>
      ((map.difficulty_points.getD i default).speed_multiplier,
       (map.difficulty_points.getD i default).time)
  | none => (1, 0)

/-! ## Slider parameters (lib.rs lines 97-109) -/

/-- lib.rs lines 97-101: the slider tick distance
`100 * sv / tick_rate`, divided for format version >= 8 by
`clamp(100 / speed_multiplier, 10, 1000) / 100`. The raw (un-forced)
speed multiplier is used here. (For `speed_multiplier = 0` the f32 code
yields the clamp's upper end via infinity while `ℚ` division gives 0 and
thus the lower end; no claim evaluates this formula at 0.) -/
def tick_distance_of (map : Beatmap) (speed_multiplier : ℚ) : ℚ :=
  if 8 ≤ map.version then
    100 * map.sv / map.tick_rate / (min (max (100 / speed_multiplier) 10) 1000 / 100)
  else
    100 * map.sv / map.tick_rate

/-- lib.rs lines 103-107: the speed multiplier used for the span duration is
forced to 1 exactly when `timing_time > diff_time`. -/
def effective_spm (timing_time diff_time speed_multiplier : ℚ) : ℚ :=
  if diff_time < timing_time then 1 else speed_multiplier

/-- lib.rs line 109: span duration
`repeats * beat_len * pixel_len / (sv * spm) / 100`. -/
def slider_duration (map : Beatmap) (repeats : Nat) (beat_len pixel_len spm : ℚ) : ℚ :=
  (repeats : ℚ) * beat_len * pixel_len / (map.sv * spm) / 100

/-! ## Curves (lib.rs lines 111-124) -/

/-- The curve value built by the `curve.rs` constructors (module absent from
src/); kept as pure data, with `point_at_distance` abstracted in `Params`. -/
inductive Curve
  | linear (p₁ p₂ : Point)
  | bezier (cps : List Point)
  | catmull (cps : List Point)
  | perfect (cps : List Point)
deriving DecidableEq

/-- Modelled from the spec: `Curve::bezier` of the absent `curve.rs`; spec
section 4.1/7 requires a shape with fewer than 2 control points to fail fast. -/
def Curve.mk_bezier (cps : List Point) : Except Panic Curve :=
  if cps.length < 2 then Except.error Panic.tooFewPoints
  else Except.ok (Curve.bezier cps)

/-- Modelled from the spec: `Curve::catmull` of the absent `curve.rs`; fails
fast below 2 control points. -/
def Curve.mk_catmull (cps : List Point) : Except Panic Curve :=
  if cps.length < 2 then Except.error Panic.tooFewPoints
  else Except.ok (Curve.catmull cps)

/-- Modelled from the spec: `Curve::perfect` of the absent `curve.rs`; fails
fast below 2 control points (collinear 3-point inputs degrade to linear
behaviour inside the curve, not to an error). -/
def Curve.mk_perfect (cps : List Point) : Except Panic Curve :=
  if cps.length < 2 then Except.error Panic.tooFewPoints
  else Except.ok (Curve.perfect cps)

/-- lib.rs lines 111-117: the path-type reinterpretation. A `PerfectCurve`
with more than 3 control points becomes `Bezier`; any path with exactly 2
control points becomes `Linear`. -/
def effective_path_type (path_type : PathType) (cps : List Point) : PathType :=
  if path_type = PathType.PerfectCurve ∧ 3 < cps.length then PathType.Bezier
  else if cps.length = 2 then PathType.Linear
  else path_type

/-- lib.rs lines 111-124: reinterpret the path type, then dispatch to the
curve constructor; the `Linear` arm indexes `curve_points[0]` and
`curve_points[1]`. -/
def build_curve (path_type : PathType) (cps : List Point) : Except Panic Curve :=
  match effective_path_type path_type cps with
  | PathType.Linear => do
      let p0 ← idx cps 0
      let p1 ← idx cps 1
      Except.ok (Curve.linear p0 p1)
  | PathType.Bezier => Curve.mk_bezier cps
  | PathType.Catmull => Curve.mk_catmull cps
  | PathType.PerfectCurve => Curve.mk_perfect cps

/-! ## Catchable points and the abstract parameters of the missing modules -/

/-- Modelled from the spec: the `CatchObject` of the absent `catch_object.rs`
(spec section 3, CatchablePoint): horizontal position, time, and the
hyperdash state (`none` or the target position). -/
structure CatchObject where
  x : ℚ
  time : ℚ
  hyper_dash : Option ℚ
deriving DecidableEq

instance : Inhabited CatchObject := ⟨⟨0, 0, none⟩⟩

/-- lib.rs lines 48/178: `CatchObject::new((pos, time))` keeps the horizontal
position and time, with no hyperdash yet. -/
def CatchObject.new (p : Point × ℚ) : CatchObject := ⟨p.1.x, p.2, none⟩

/-- Modelled from the spec: the `DifficultyObject` of the absent
`difficulty_object.rs` (spec section 3, NormalizedTransition): the current
point (`base`, whose time drives section bookkeeping in lib.rs lines
223/243), the normalized distance, the clock-rate-scaled time delta, and the
hyperdash flag. -/
structure DifficultyObject where
  base : CatchObject
  dist : ℚ
  delta_time : ℚ
  hyper : Bool
deriving DecidableEq

/-- Modelled from the spec: `DifficultyObject::new(curr, prev,
half_catcher_width, clock_rate)` — normalized horizontal distance (raw pixel
distance divided by the half width, with an extra offset while a hyperdash is
active) and the map time delta divided by the clock rate (spec section 3). -/
def DifficultyObject.new (curr prev : CatchObject)
    (half_catcher_width clock_rate : ℚ) : DifficultyObject :=
  { base := curr
    dist := (|curr.x - prev.x| +
      (if prev.hyper_dash.isSome then half_catcher_width else 0)) / half_catcher_width
    delta_time := (curr.time - prev.time) / clock_rate
    hyper := prev.hyper_dash.isSome }

/-- The numeric behaviour of the modules absent from src/, abstracted:
`point_at` is `Curve::point_at_distance` (curve.rs), `with_hr` is
`CatchObject::with_hr` and `init_hyper_dash` is
`CatchObject::init_hyper_dash` (catch_object.rs; the latter returns the
updated current object together with the new carried direction and excess),
`bonus` is the raw per-transition strain bonus, `decay` the strain decay over
a time delta, and `weight_base` the aggregator's rank weight base
(movement.rs; spec sections 4.1, 4.3-4.5). Every theorem below holds for any
instantiation. -/
structure Params where
  point_at : Curve → ℚ → Point
  with_hr : CatchObject → Option ℚ → ℚ → CatchObject
  init_hyper_dash : ℚ → CatchObject → CatchObject → Int → ℚ → CatchObject × Int × ℚ
  bonus : DifficultyObject → ℚ
  decay : ℚ → ℚ
  weight_base : ℚ

/-- A concrete instantiation of the missing numeric code, used for closed
evaluations: constant path point, identity HR reposition, hyperdash pass that
never marks a dash, unit bonus, unit decay, rank weight 0.9. -/
def defaultParams : Params :=
  { point_at := fun _ _ => ⟨0, 0⟩
    with_hr := fun c _ _ => c
    init_hyper_dash := fun _ c _ d e => (c, d, e)
    bonus := fun _ => 1
    decay := fun _ => 1
    weight_base := 9 / 10 }

/-! ## Strain model (spec section 4.4/4.5; `movement.rs` absent from src/) -/

/-- Modelled from the spec: the strain model state of the absent
`movement.rs` (spec section 3, StrainSection): the half catcher width read in
lib.rs line 218, the decayed running strain, the running peak of the current
section, the list of recorded per-section peaks, and the time of the last
processed transition. -/
structure Movement where
  half_catcher_width : ℚ
  current_strain : ℚ
  current_section_peak : ℚ
  strain_peaks : List ℚ
  prev_time : ℚ
deriving DecidableEq

/-- Modelled from the spec: `Movement::new(cs)` starts with zero strain, zero
peak and no recorded sections. -/
def Movement.new (cs : ℚ) : Movement :=
  ⟨calculate_catch_width cs / 2 / ALLOWED_CATCH_RANGE, 0, 0, [], 0⟩

/-- Modelled from the spec: `save_current_peak` records the running peak of
the section into the peak list (spec section 4.4). -/
def Movement.save_current_peak (m : Movement) : Movement :=
  { m with strain_peaks := m.strain_peaks ++ [m.current_section_peak] }

/-- Modelled from the spec: `start_new_section_from(time)` resets the running
peak to the current strain decayed forward to the new section start — strain
is carried over, not reset to zero (spec section 4.4). -/
def Movement.start_new_section_from (P : Params) (m : Movement) (time : ℚ) : Movement :=
  { m with current_section_peak := m.current_strain * P.decay (time - m.prev_time) }

/-- Modelled from the spec: `process(h)` decays the running strain over the
transition's time delta, adds the raw bonus, and updates the running section
peak (spec section 4.4). -/
def Movement.process (P : Params) (m : Movement) (h : DifficultyObject) : Movement :=
  { m with
    current_strain := m.current_strain * P.decay h.delta_time + P.bonus h
    current_section_peak :=
      max (m.current_strain * P.decay h.delta_time + P.bonus h) m.current_section_peak
    prev_time := h.base.time }

/-- Insertion step of the descending sort used by the aggregator. -/
def insert_desc (x : ℚ) : List ℚ → List ℚ
  | [] => [x]
  | y :: ys => if y ≤ x then x :: y :: ys else y :: insert_desc x ys

/-- Modelled from the spec: the aggregator sorts the recorded peaks in
descending order (spec section 4.5). -/
def sort_desc (l : List ℚ) : List ℚ := l.foldr insert_desc []

/-- Weighted sum of the sorted peaks: each entry is multiplied by the running
weight, which is multiplied by the base after every entry (spec section 4.5:
a constant base raised to the zero-based rank). -/
def weighted_sum (base : ℚ) : ℚ → List ℚ → ℚ
  | _, [] => 0
  | w, x :: xs => x * w + weighted_sum base (w * base) xs

/-- Modelled from the spec: `difficulty_value` is the rank-weighted sum of
the descending-sorted section peaks (spec section 4.5; the square root and
star scaling are applied in lib.rs line 253). -/
def Movement.difficulty_value (P : Params) (m : Movement) : ℚ :=
  weighted_sum P.weight_base 1 (sort_desc m.strain_peaks)

/-- lib.rs lines 223-227 and 243-248: the section-closing while loop. While
the transition time `t` exceeds the current section end, save the section
peak, start a new section at the old boundary, and advance the boundary by
the section length. (The `0 < L` guard is needed for termination; the Rust
loop would not terminate for a non-positive section length, which cannot
occur since the clock rate is positive.) -/
def close_sections (P : Params) (m : Movement) (L sec_end t : ℚ) : Movement × ℚ :=
  if h : 0 < L ∧ sec_end < t then
    close_sections P ((m.save_current_peak).start_new_section_from P sec_end) L
      (sec_end + L) t
  else
    (m, sec_end)
termination_by ⌈(t - sec_end) / L⌉.toNat
decreasing_by
  have hL : (0:ℚ) < L := h.1
  have hx : (0:ℚ) < (t - sec_end) / L := div_pos (by linarith [h.2]) hL
  have h1 : (0:ℤ) < ⌈(t - sec_end) / L⌉ := Int.ceil_pos.mpr hx
  have h2 : (t - (sec_end + L)) / L = (t - sec_end) / L - 1 := by
    field_simp
    ring
  rw [h2, Int.ceil_sub_one]
  omega

/-! ## Slider expansion (lib.rs lines 126-176) -/

/-- lib.rs lines 126-137: the tick generation loop. Starting at one tick
distance, while the travelled distance is below `target`, push the path point
with time `start_time + time_add * (number of ticks so far + 1)` and advance
by the tick distance. (The `0 < td` guard is needed for termination; the Rust
loop would not terminate for a non-positive tick distance.) -/
def tick_loop (P : Params) (curve : Curve) (td target start_time time_add : ℚ)
    (cur : ℚ) (acc : List (Point × ℚ)) : List (Point × ℚ) :=
  if h : 0 < td ∧ cur < target then
    tick_loop P curve td target start_time time_add (cur + td)
      (acc ++ [(P.point_at curve cur, start_time + time_add * ((acc.length : ℚ) + 1))])
  else
    acc
termination_by ⌈(target - cur) / td⌉.toNat
decreasing_by
  have hL : (0:ℚ) < td := h.1
  have hx : (0:ℚ) < (target - cur) / td := div_pos (by linarith [h.2]) hL
  have h1 : (0:ℤ) < ⌈(target - cur) / td⌉ := Int.ceil_pos.mpr hx
  have h2 : (target - (cur + td)) / td = (target - cur) / td - 1 := by
    field_simp
    ring
  rw [h2, Int.ceil_sub_one]
  omega

/-- lib.rs lines 147-157: the inner-repeat loop for `repeat_id` from 1 to
`repeats - 2`: push the reverse point at distance `(repeat_id % 2) *
pixel_len` and time `start_time + (duration / repeats) * repeat_id`, reverse
the tick buffer, and append it (tick times are reused unadjusted). Returns
the final tick buffer and the accumulated objects. -/
def inner_repeats (P : Params) (curve : Curve) (pixel_len duration start_time : ℚ)
    (repeats : Nat) (repeat_id : Nat) (ticks objs : List (Point × ℚ)) :
    List (Point × ℚ) × List (Point × ℚ) :=
  if h : repeat_id < repeats - 1 then
    inner_repeats P curve pixel_len duration start_time repeats (repeat_id + 1)
      ticks.reverse
      ((objs ++ [(P.point_at curve (((repeat_id % 2 : Nat) : ℚ) * pixel_len),
        start_time + duration / (repeats : ℚ) * (repeat_id : ℚ))]) ++ ticks.reverse)
  else
    (ticks, objs)
termination_by repeats - 1 - repeat_id
decreasing_by
  omega

/-- lib.rs lines 58-176: expansion of one slider into its raw
(position, time) stream: timing and difficulty lookup, tick distance and
forced speed multiplier, duration, curve construction with the path-type
reinterpretation, the tick loop, the per-repeat assembly, and the slider
tail at distance `(repeats % 2) * pixel_len` and time
`start_time + duration`. -/
def expand_slider (P : Params) (map : Beatmap) (pos : Point) (start_time : ℚ)
    (pixel_len : ℚ) (repeats : Nat) (curve_points : List Point)
    (path_type : PathType) : Except Panic (List (Point × ℚ)) := do
  let bl := lookup_timing map start_time
  let sm := lookup_difficulty map start_time
  let tick_distance := tick_distance_of map sm.1
  let spm := effective_spm bl.2 sm.2 sm.1
  let duration := slider_duration map repeats bl.1 pixel_len spm
  let curve ← build_curve path_type curve_points
  let time_add := duration * (tick_distance / (pixel_len * (repeats : ℚ)))
  let target := pixel_len - tick_distance / 8
  let ticks := tick_loop P curve tick_distance target start_time time_add tick_distance []
  let tail := (P.point_at curve (((repeats % 2 : Nat) : ℚ) * pixel_len),
    start_time + duration)
  if repeats ≤ 1 then
    Except.ok (((pos, start_time) :: ticks) ++ [tail])
  else
    let st := inner_repeats P curve pixel_len duration start_time repeats 1 ticks
      ((pos, start_time) :: ticks)
    let objs := (st.2 ++
      [(P.point_at curve ((((repeats - 1) % 2 : Nat) : ℚ) * pixel_len),
        start_time + duration / (repeats : ℚ) * ((repeats - 1 : Nat) : ℚ))]) ++
      st.1.reverse
    Except.ok (objs ++ [tail])

/-! ## Object stream construction (lib.rs lines 43-185) -/

/-- lib.rs lines 43-185: the `scan` over the hit objects carrying the HR
state `(last_pos, last_time)`. Circles contribute one fruit (repositioned
when HR is active); sliders update the HR state from their control points
(indexing panics for an empty control list, as the Rust `curve_points[len-1]`
does), expand, and contribute `1 + repeats` fruits and
`len - 1 - repeats` droplets; spinners and holds contribute nothing. -/
def build_objects_go (P : Params) (map : Beatmap) (hr : Bool) :
    List HitObject → Option ℚ → ℚ → List CatchObject → Nat → Nat →
    Except Panic (List CatchObject × Nat × Nat)
  | [], _, _, acc, fruits, droplets => Except.ok (acc, fruits, droplets)
  | h :: rest, last_pos, last_time, acc, fruits, droplets =>
    match h.kind with
    | HitObjectKind.Circle =>
        let c := CatchObject.new (h.pos, h.start_time)
        let c := if hr then P.with_hr c last_pos last_time else c
        build_objects_go P map hr rest last_pos last_time (acc ++ [c])
          (fruits + 1) droplets
    | HitObjectKind.Slider pixel_len repeats cps path_type => do
        let p_last ← idx cps (cps.length - 1)
        let p0 ← idx cps 0
        let objs ← expand_slider P map h.pos h.start_time pixel_len repeats cps path_type
        build_objects_go P map hr rest (some (h.pos.x + p_last.x - p0.x)) h.start_time
          (acc ++ objs.map CatchObject.new) (fruits + 1 + repeats)
          (droplets + (objs.length - 1 - repeats))
    | HitObjectKind.Spinner =>
        build_objects_go P map hr rest last_pos last_time acc fruits droplets
    | HitObjectKind.Hold =>
        build_objects_go P map hr rest last_pos last_time acc fruits droplets

/-- The full catchable-point stream with the fruit and droplet counts. -/
def build_objects (P : Params) (map : Beatmap) (hr : Bool) :
    Except Panic (List CatchObject × Nat × Nat) :=
  build_objects_go P map hr map.hit_objects none 0 [] 0 0

/-! ## The strain pass and the final rating (lib.rs lines 187-261) -/

/-- State of the strain for-loop of lib.rs lines 208-233. -/
structure LoopState where
  prev : CatchObject
  curr : CatchObject
  last_direction : Int
  last_excess : ℚ
  movement : Movement
  current_section_end : ℚ

/-- lib.rs lines 208-233: for each following object, hyperdash-initialize
`curr` against it, build the difficulty object from the updated `curr` and
`prev`, close sections while its time exceeds the boundary, process it, and
shift the window. -/
def strain_loop (P : Params) (half_w clock_rate L : ℚ) :
    List CatchObject → LoopState → LoopState
  | [], st => st
  | next :: rest, st =>
    let ih := P.init_hyper_dash half_w st.curr next st.last_direction st.last_excess
    let h := DifficultyObject.new ih.1 st.prev st.movement.half_catcher_width clock_rate
    let cs := close_sections P st.movement L st.current_section_end h.base.time
    strain_loop P half_w clock_rate L rest
      { prev := ih.1, curr := next, last_direction := ih.2.1, last_excess := ih.2.2
        movement := (cs.1).process P h, current_section_end := cs.2 }

/-- lib.rs lines 236-251: the last transition: build the difficulty object
(without hyperdash initialization, `curr` being the last element), close
sections while its time exceeds the boundary, process it, and force one final
`save_current_peak`. -/
def final_phase (P : Params) (clock_rate L : ℚ) (prev curr : CatchObject)
    (m : Movement) (sec_end : ℚ) : Movement :=
  let h := DifficultyObject.new curr prev m.half_catcher_width clock_rate
  let cs := close_sections P m L sec_end h.base.time
  (((cs.1).process P h)).save_current_peak

/-- lib.rs lines 296-302: the output record; `derive(Default)` zeroes every
field. -/
structure DifficultyAttributes where
  stars : ℚ
  max_combo : Nat
  n_fruits : Nat
  n_droplets : Nat
deriving DecidableEq

/-- The `Default::default()` value returned for maps with fewer than 2 hit
objects (lib.rs line 32). -/
def DifficultyAttributes.default : DifficultyAttributes := ⟨0, 0, 0, 0⟩

/-- lib.rs lines 30-261: the `stars` computation. Fewer than 2 hit objects
short-circuits to the default; otherwise the object stream is built, the
first two catchable points are taken (`unwrap`, panicking when fewer than 2
exist), the first is hyperdash-initialized against the second, the strain
loop, the final phase, and the rating
`sqrt(difficulty_value) * STAR_SCALING_FACTOR` with the fruit, droplet, and
max-combo counts. (`Rat.sqrt` stands in for `f32::sqrt`.) -/
def stars (P : Params) (map : Beatmap) (mods : Mods) :
    Except Panic DifficultyAttributes :=
  if map.hit_objects.length < 2 then Except.ok DifficultyAttributes.default
  else
    match build_objects P map mods.hr with
    | Except.error e => Except.error e
    | Except.ok (objects, fruits, droplets) =>
      match objects with
      | o0 :: o1 :: rest =>
        let attrs := map.attributes_mods mods
        let half_catcher_width := calculate_catch_width attrs.cs / 2 / ALLOWED_CATCH_RANGE
        let L := SECTION_LENGTH * attrs.clock_rate
        let sec_end0 :=
          (⌈(map.hit_objects.headD default).start_time / L⌉ : ℚ) * L
        let ih := P.init_hyper_dash half_catcher_width o0 o1 0 half_catcher_width
        let st := strain_loop P half_catcher_width attrs.clock_rate L rest
          { prev := ih.1, curr := o1, last_direction := ih.2.1, last_excess := ih.2.2
            movement := Movement.new attrs.cs, current_section_end := sec_end0 }
        let m := final_phase P attrs.clock_rate L st.prev st.curr st.movement
          st.current_section_end
        Except.ok
          { stars := Rat.sqrt (m.difficulty_value P) * STAR_SCALING_FACTOR
            max_combo := fruits + droplets
            n_fruits := fruits
            n_droplets := droplets }
      | _ => Except.error Panic.unwrapNone

/-! ## Concrete maps used in closed evaluations -/

/-- A map with no hit objects at all. -/
def empty_map : Beatmap := ⟨[], [], [], 1, 1, 5, 1⟩

/-- A map consisting of one linear slider with `repeats = 1`,
`pixel_len = 50`, and (with `sv = 1`, `tick_rate = 1`, version < 8) a tick
distance of 100 ≥ 50. -/
def single_slider_map : Beatmap :=
  ⟨[⟨⟨0, 0⟩, 0, HitObjectKind.Slider 50 1 [⟨0, 0⟩, ⟨50, 0⟩] PathType.Linear⟩],
    [], [], 1, 1, 5, 1⟩

/-- A map of two spinners: two hit objects, zero catchable points. -/
def spinner_map : Beatmap :=
  ⟨[⟨⟨0, 0⟩, 0, HitObjectKind.Spinner⟩, ⟨⟨0, 0⟩, 1000, HitObjectKind.Spinner⟩],
    [], [], 1, 1, 5, 1⟩

/-- A map consisting of exactly one slider whose curve has a single control
point (fewer than 2). -/
def bad_slider_map : Beatmap :=
  ⟨[⟨⟨0, 0⟩, 0, HitObjectKind.Slider 50 1 [⟨0, 0⟩] PathType.Linear⟩],
    [], [], 1, 1, 5, 1⟩

/-- A map with one circle followed by a slider whose curve has a single
control point. -/
def circle_bad_slider_map : Beatmap :=
  ⟨[⟨⟨0, 0⟩, 0, HitObjectKind.Circle⟩,
    ⟨⟨0, 0⟩, 500, HitObjectKind.Slider 50 1 [⟨0, 0⟩] PathType.Linear⟩],
    [], [], 1, 1, 5, 1⟩

/-- A map of exactly 2 circles 500 ms apart whose horizontal positions differ
by one full catcher width; timing points, difficulty points and the remaining
attributes are arbitrary. -/
def two_circle_map (t x cs sv tr : ℚ) (ver : Nat) (tps : List TimingPoint)
    (dps : List DifficultyPoint) : Beatmap :=
  ⟨[⟨⟨x, 0⟩, t, HitObjectKind.Circle⟩,
    ⟨⟨x + calculate_catch_width cs, 0⟩, t + 500, HitObjectKind.Circle⟩],
    tps, dps, sv, tr, cs, ver⟩

/-! ## C1: the duration-only forcing of the speed multiplier -/

/-- C1 counterexample: with the applicable timing point at time 0 and the
applicable difficulty point at time 5, the timing point predates the
difficulty point, yet the multiplier 2 is NOT forced to 1 (the code forces
it only in the opposite situation, lib.rs line 103). -/
theorem C1_counterexample : (0 : ℚ) < 5 ∧ effective_spm 0 5 2 = 2 := by
  constructor
  · norm_num
  · norm_num [effective_spm]

/-- C1 (amended): the span-duration multiplier is forced to 1 exactly when
the applicable DIFFICULTY point strictly predates the applicable TIMING
point (`timing_time > diff_time`, lib.rs lines 103-107), the span duration is
`repeats * beat_len * pixel_len / (sv * forced multiplier) / 100`
(lib.rs line 109), and the tick distance is computed from the un-forced
multiplier with no dependence on the two point times (lib.rs lines 97-101). -/
theorem C1_amended_thm (tt dt s : ℚ) (map : Beatmap) (r : Nat) (bl pl : ℚ) :
    (effective_spm tt dt s = 1 ↔ dt < tt ∨ s = 1) ∧
    (¬ dt < tt → effective_spm tt dt s = s) ∧
    (slider_duration map r bl pl (effective_spm tt dt s) =
      (r : ℚ) * bl * pl / (map.sv * effective_spm tt dt s) / 100) ∧
    (tick_distance_of map s =
      if 8 ≤ map.version then
        100 * map.sv / map.tick_rate / (min (max (100 / s) 10) 1000 / 100)
      else 100 * map.sv / map.tick_rate) := by
  refine ⟨?_, ?_, rfl, rfl⟩
  · unfold effective_spm
    by_cases h : dt < tt
    · simp [h]
    · simp [h]
  · intro h
    simp [effective_spm, h]

/-- C1 amended, witnessed at concrete inputs: difficulty point at time 1
before timing point at time 3 forces the multiplier 7 to 1; timing point at
time 1 before difficulty point at time 3 keeps it at 7. -/
theorem C1_amended_witness :
    effective_spm 3 1 7 = 1 ∧ effective_spm 1 3 7 = 7 := by
  constructor
  · exact (C1_amended_thm 3 1 7 empty_map 1 1 1).1.mpr (Or.inl (by norm_num))
  · exact (C1_amended_thm 1 3 7 empty_map 1 1 1).2.1 (by norm_num)

/-! ## C2: path-type reinterpretation -/

/-- C2: a `PerfectCurve` path with more than 3 control points builds exactly
the curve a `Bezier` tag would build, and any path with exactly 2 control
points builds exactly the curve a `Linear` tag would build; in both cases the
construction succeeds (lib.rs lines 111-124). -/
theorem C2_reinterpretation (cps : List Point) :
    (3 < cps.length →
      build_curve PathType.PerfectCurve cps = build_curve PathType.Bezier cps ∧
      ∃ c, build_curve PathType.PerfectCurve cps = Except.ok c) ∧
    (cps.length = 2 → ∀ pt : PathType,
      build_curve pt cps = build_curve PathType.Linear cps ∧
      ∃ c, build_curve pt cps = Except.ok c) := by
  constructor
  · intro h3
    have he : effective_path_type PathType.PerfectCurve cps = PathType.Bezier := by
      simp [effective_path_type, h3]
    have he2 : effective_path_type PathType.Bezier cps = PathType.Bezier := by
      have : cps.length ≠ 2 := by omega
      simp [effective_path_type, this]
    have hb : build_curve PathType.PerfectCurve cps = Curve.mk_bezier cps := by
      simp [build_curve, he]
    have hb2 : build_curve PathType.Bezier cps = Curve.mk_bezier cps := by
      simp [build_curve, he2]
    have hok : Curve.mk_bezier cps = Except.ok (Curve.bezier cps) := by
      have : ¬ cps.length < 2 := by omega
      simp [Curve.mk_bezier, this]
    exact ⟨hb.trans hb2.symm, ⟨Curve.bezier cps, hb.trans hok⟩⟩
  · intro h2 pt
    have he : ∀ q : PathType, effective_path_type q cps = PathType.Linear := by
      intro q
      have h32 : ¬ (q = PathType.PerfectCurve ∧ 3 < cps.length) := by
        rintro ⟨-, hgt⟩
        omega
      rw [effective_path_type, if_neg h32, if_pos h2]
    match cps, h2 with
    | [a, b], _ =>
      have hL : ∀ q : PathType,
          build_curve q [a, b] = Except.ok (Curve.linear a b) := by
        intro q
        rw [build_curve, he q]
        simp [idx, bind, Except.bind]
      exact ⟨(hL pt).trans (hL PathType.Linear).symm, ⟨Curve.linear a b, hL pt⟩⟩

/-- C2 witnessed at concrete inputs: a 4-point perfect-arc request equals the
bezier build and succeeds; a 2-point catmull request equals the linear build
and succeeds. -/
theorem C2_witness :
    (build_curve PathType.PerfectCurve [⟨0,0⟩, ⟨1,0⟩, ⟨2,0⟩, ⟨3,0⟩] =
      build_curve PathType.Bezier [⟨0,0⟩, ⟨1,0⟩, ⟨2,0⟩, ⟨3,0⟩]) ∧
    (build_curve PathType.Catmull [⟨0,0⟩, ⟨1,0⟩] =
      build_curve PathType.Linear [⟨0,0⟩, ⟨1,0⟩]) := by
  constructor
  · exact ((C2_reinterpretation [⟨0,0⟩, ⟨1,0⟩, ⟨2,0⟩, ⟨3,0⟩]).1 (by norm_num)).1
  · exact (((C2_reinterpretation [⟨0,0⟩, ⟨1,0⟩]).2 (by norm_num)) PathType.Catmull).1

/-! ## C3: short-circuit below 2 hit objects -/

/-- C3: any map with fewer than 2 hit objects short-circuits to the
zero-valued default result (lib.rs lines 31-33, 296-302) instead of failing. -/
theorem C3_short_circuit (P : Params) (map : Beatmap) (mods : Mods)
    (h : map.hit_objects.length < 2) :
    stars P map mods = Except.ok DifficultyAttributes.default ∧
    DifficultyAttributes.default =
      { stars := 0, max_combo := 0, n_fruits := 0, n_droplets := 0 } := by
  exact ⟨by rw [stars, if_pos h], rfl⟩

/-- C3 witnessed on the one-slider map (1 hit object). -/
theorem C3_witness :
    single_slider_map.hit_objects.length < 2 ∧
    stars defaultParams single_slider_map noMods =
      Except.ok DifficultyAttributes.default :=
  ⟨by norm_num [single_slider_map], (C3_short_circuit defaultParams single_slider_map
    noMods (by norm_num [single_slider_map])).1⟩

/-! ## C8: determinism -/

/-- C8: the stars computation is a pure function — identical inputs produce
the identical `DifficultyAttributes`, bit for bit (spec section 5; the code
has no global state, no randomness and no I/O). -/
theorem C8_deterministic (P : Params) (map₁ map₂ : Beatmap) (mods : Mods)
    (h : map₁ = map₂) : stars P map₁ mods = stars P map₂ mods := by
  rw [h]

/-- C8 witnessed on a concrete map. -/
theorem C8_witness :
    stars defaultParams spinner_map noMods = stars defaultParams spinner_map noMods :=
  C8_deterministic defaultParams spinner_map spinner_map noMods rfl

/-! ## C10: panic on maps with 2 or more hit objects but fewer than 2
catchable points -/

/-- C10: a map of two spinners has 2 hit objects but produces zero catchable
points, and the computation hits the `unwrap` of the emptied catchable-point
iterator (lib.rs lines 198-199) — modelled as the `unwrapNone` panic — rather
than returning a zero-valued result or a propagated error. -/
theorem C10_spinner_panic :
    2 ≤ spinner_map.hit_objects.length ∧
    stars defaultParams spinner_map noMods = Except.error Panic.unwrapNone := by
  constructor
  · norm_num [spinner_map]
  · rfl

/-! ## C4: a single no-tick slider -/

/-- C4 counterexample: `single_slider_map` consists of exactly one slider
with `repeats = 1` and tick distance 100 ≥ pixel length 50, yet the stars
computation returns the zero default (`n_fruits = 0`, not 2), because a map
with fewer than 2 hit objects short-circuits before any slider is expanded
(lib.rs lines 31-33). -/
theorem C4_counterexample :
    single_slider_map.hit_objects.length = 1 ∧
    (single_slider_map.hit_objects.headD default).kind =
      HitObjectKind.Slider 50 1 [⟨0, 0⟩, ⟨50, 0⟩] PathType.Linear ∧
    (50 : ℚ) ≤ tick_distance_of single_slider_map
      (lookup_difficulty single_slider_map 0).1 ∧
    stars defaultParams single_slider_map noMods =
      Except.ok DifficultyAttributes.default ∧
    DifficultyAttributes.default.n_fruits = 0 := by
  refine ⟨rfl, rfl, ?_, rfl, rfl⟩
  have hld : lookup_difficulty single_slider_map 0 = (1, 0) := by
    simp [lookup_difficulty, lookup_point, binary_search, binary_search_go,
      single_slider_map]
  rw [hld]
  norm_num [tick_distance_of, single_slider_map]

/-- C4 (amended): the per-slider expansion of lib.rs lines 126-176 does
produce, for `repeats = 1` and tick distance ≥ pixel length, exactly one
point at the slider start and one final point at the path's full pixel
length (the slider end) at time `start + duration`, with zero ticks — so the
slider contributes `1 + repeats = 2` fruits and `2 - 1 - repeats = 0`
droplets (lib.rs lines 170-176) — but a map consisting of that slider alone
still short-circuits to the zero default. -/
theorem C4_amended_thm (P : Params) (map : Beatmap) (pos : Point)
    (t pixel_len : ℚ) (cps : List Point) (pt : PathType) (curve : Curve)
    (hcurve : build_curve pt cps = Except.ok curve)
    (hpl : 0 < pixel_len)
    (htd : pixel_len ≤ tick_distance_of map (lookup_difficulty map t).1) :
    expand_slider P map pos t pixel_len 1 cps pt =
      Except.ok [(pos, t),
        (P.point_at curve pixel_len,
         t + slider_duration map 1 (lookup_timing map t).1 pixel_len
           (effective_spm (lookup_timing map t).2 (lookup_difficulty map t).2
             (lookup_difficulty map t).1))] := by
  have h0 : (0 : ℚ) < tick_distance_of map (lookup_difficulty map t).1 :=
    lt_of_lt_of_le hpl htd
  have hticks : ∀ curve time_add,
      tick_loop P curve (tick_distance_of map (lookup_difficulty map t).1)
        (pixel_len - tick_distance_of map (lookup_difficulty map t).1 / 8)
        t time_add (tick_distance_of map (lookup_difficulty map t).1) [] = [] := by
    intro c ta
    rw [tick_loop, dif_neg]
    rintro ⟨-, hlt⟩
    have : tick_distance_of map (lookup_difficulty map t).1 / 8 > 0 := by linarith
    linarith
  rw [expand_slider]
  simp only [hcurve, bind, Except.bind, hticks]
  norm_num

/-- C4 amended, witnessed on a concrete linear slider (pixel length 50, tick
distance 100). -/
theorem C4_amended_witness :
    build_curve PathType.Linear [⟨0, 0⟩, ⟨50, 0⟩] =
      Except.ok (Curve.linear ⟨0, 0⟩ ⟨50, 0⟩) ∧
    (0 : ℚ) < 50 ∧
    (50 : ℚ) ≤ tick_distance_of single_slider_map
      (lookup_difficulty single_slider_map 0).1 ∧
    expand_slider defaultParams single_slider_map ⟨0, 0⟩ 0 50 1
        [⟨0, 0⟩, ⟨50, 0⟩] PathType.Linear =
      Except.ok [((⟨0, 0⟩ : Point), (0 : ℚ)),
        (defaultParams.point_at (Curve.linear ⟨0, 0⟩ ⟨50, 0⟩) 50,
         0 + slider_duration single_slider_map 1 (lookup_timing single_slider_map 0).1 50
           (effective_spm (lookup_timing single_slider_map 0).2
             (lookup_difficulty single_slider_map 0).2
             (lookup_difficulty single_slider_map 0).1))] := by
  have hld : lookup_difficulty single_slider_map 0 = (1, 0) := by
    simp [lookup_difficulty, lookup_point, binary_search, binary_search_go,
      single_slider_map]
  have h1 : build_curve PathType.Linear [⟨0, 0⟩, ⟨50, 0⟩] =
      Except.ok (Curve.linear ⟨0, 0⟩ ⟨50, 0⟩) := rfl
  have h3 : (50 : ℚ) ≤ tick_distance_of single_slider_map
      (lookup_difficulty single_slider_map 0).1 := by
    rw [hld]
    norm_num [tick_distance_of, single_slider_map]
  exact ⟨h1, by norm_num, h3,
    C4_amended_thm defaultParams single_slider_map ⟨0, 0⟩ 0 50 [⟨0, 0⟩, ⟨50, 0⟩]
      PathType.Linear (Curve.linear ⟨0, 0⟩ ⟨50, 0⟩) h1 (by norm_num) h3⟩

/-! ## C5: section closing -/

/-- Full behaviour of the section-closing loop: under a positive section
length it stops at the first boundary at or beyond the transition time,
records exactly one peak per crossed boundary, and leaves the boundary of
the form `start + k * L`. -/
lemma close_sections_spec (P : Params) (L : ℚ) (hL : 0 < L) :
    ∀ (n : Nat) (e t : ℚ) (m : Movement), ⌈(t - e) / L⌉.toNat ≤ n →
    ∃ k : Nat,
      (close_sections P m L e t).2 = e + (k : ℚ) * L ∧
      t ≤ (close_sections P m L e t).2 ∧
      (∀ j : Nat, j < k → e + (j : ℚ) * L < t) ∧
      (close_sections P m L e t).1.strain_peaks.length =
        m.strain_peaks.length + k := by
  intro n
  induction n with
  | zero =>
    intro e t m hn
    have hnot : ¬ e < t := by
      intro hlt
      have hx : (0 : ℚ) < (t - e) / L := div_pos (by linarith) hL
      have h1 : (0 : ℤ) < ⌈(t - e) / L⌉ := Int.ceil_pos.mpr hx
      omega
    rw [close_sections, dif_neg (by tauto)]
    exact ⟨0, by push_cast; ring, le_of_not_lt hnot, by omega, by simp⟩
  | succ n ih =>
    intro e t m hn
    by_cases hlt : e < t
    · rw [close_sections, dif_pos ⟨hL, hlt⟩]
      have hx : (0 : ℚ) < (t - e) / L := div_pos (by linarith) hL
      have h1 : (0 : ℤ) < ⌈(t - e) / L⌉ := Int.ceil_pos.mpr hx
      have hmeas : ⌈(t - (e + L)) / L⌉.toNat ≤ n := by
        have h2 : (t - (e + L)) / L = (t - e) / L - 1 := by
          field_simp
          ring
        rw [h2, Int.ceil_sub_one]
        omega
      obtain ⟨k, hk1, hk2, hk3, hk4⟩ :=
        ih (e + L) t ((m.save_current_peak).start_new_section_from P e) hmeas
      refine ⟨k + 1, ?_, hk2, ?_, ?_⟩
      · rw [hk1]
        push_cast
        ring
      · intro j hj
        cases j with
        | zero =>
          simpa using hlt
        | succ j' =>
          have hj' := hk3 j' (by omega)
          push_cast at hj' ⊢
          linarith
      · rw [hk4]
        simp only [Movement.save_current_peak, Movement.start_new_section_from,
          List.length_append, List.length_singleton]
        omega
    · rw [close_sections, dif_neg (by tauto)]
      exact ⟨0, by push_cast; ring, le_of_not_lt hlt, by omega, by simp⟩

/-- C5: whenever a transition time exceeds the current section end, the loop
of lib.rs lines 223-227/243-248 closes sections one boundary at a time —
recording exactly one peak per crossed boundary, possibly several for a long
gap — until the transition time falls inside the current section; and the
final phase (lib.rs lines 236-251) records exactly one additional peak after
processing the last transition. -/
theorem C5_section_closing (P : Params) (m : Movement) (L e t : ℚ) (hL : 0 < L)
    (clock_rate : ℚ) (prev curr : CatchObject) :
    (∃ k : Nat,
      (close_sections P m L e t).2 = e + (k : ℚ) * L ∧
      t ≤ (close_sections P m L e t).2 ∧
      (∀ j : Nat, j < k → e + (j : ℚ) * L < t) ∧
      (close_sections P m L e t).1.strain_peaks.length =
        m.strain_peaks.length + k) ∧
    (final_phase P clock_rate L prev curr m e).strain_peaks.length =
      (close_sections P m L e
        (DifficultyObject.new curr prev m.half_catcher_width
          clock_rate).base.time).1.strain_peaks.length + 1 := by
  constructor
  · exact close_sections_spec P L hL _ e t m le_rfl
  · simp [final_phase, Movement.process, Movement.save_current_peak]

/-- C5 witnessed at concrete inputs (length 750, boundary 0, transition time
1000: the loop must cross boundaries and the final phase adds one peak). -/
theorem C5_witness :
    (0 : ℚ) < 750 ∧
    (1000 : ℚ) ≤ (close_sections defaultParams (Movement.new 5) 750 0 1000).2 ∧
    (final_phase defaultParams 1 750 default default (Movement.new 5) 0).strain_peaks.length =
      (close_sections defaultParams (Movement.new 5) 750 0
        (DifficultyObject.new default default (Movement.new 5).half_catcher_width
          1).base.time).1.strain_peaks.length + 1 := by
  refine ⟨by norm_num, ?_, ?_⟩
  · obtain ⟨k, h1, h2, h3, h4⟩ :=
      (C5_section_closing defaultParams (Movement.new 5) 750 0 1000 (by norm_num)
        1 default default).1
    exact h2
  · exact (C5_section_closing defaultParams (Movement.new 5) 750 0 1000 (by norm_num)
      1 default default).2

/-! ## C6: binary-search point lookup -/

/-- `getD` at an in-range index is `get`. -/
lemma getD_of_lt {α : Type} (l : List α) (n : Nat) (d : α) (h : n < l.length) :
    l.getD n d = l.get ⟨n, h⟩ := by
  simp [List.getD_eq_getElem?_getD, List.getElem?_eq_getElem h]

/-- Postcondition of the embedded `slice::binary_search_by`: `Ok i` is an
exact match; `Err i` is the insertion point — everything before it is below
the target, everything from it on is above. -/
def bs_post (ts : List ℚ) (t : ℚ) : Except Nat Nat → Prop
  | Except.ok i => ∃ hi : i < ts.length, ts.get ⟨i, hi⟩ = t
  | Except.error i => i ≤ ts.length ∧
      (∀ j : Fin ts.length, (j : Nat) < i → ts.get j < t) ∧
      (∀ j : Fin ts.length, i ≤ (j : Nat) → t < ts.get j)

/-- The binary-search loop meets `bs_post` on any strictly increasing list. -/
lemma binary_search_go_post (ts : List ℚ) (t : ℚ)
    (hmono : ∀ i j : Fin ts.length, (i : Nat) < (j : Nat) → ts.get i < ts.get j) :
    ∀ (n left right : Nat), right - left ≤ n → left ≤ right →
    right ≤ ts.length →
    (∀ j : Fin ts.length, (j : Nat) < left → ts.get j < t) →
    (∀ j : Fin ts.length, right ≤ (j : Nat) → t < ts.get j) →
    bs_post ts t (binary_search_go ts t left right) := by
  intro n
  induction n with
  | zero =>
    intro left right hfuel hlr hrlen hleft hright
    have hnlt : ¬ left < right := by omega
    rw [binary_search_go, dif_neg hnlt]
    exact ⟨by omega, hleft, fun j hj => hright j (by omega)⟩
  | succ n ih =>
    intro left right hfuel hlr hrlen hleft hright
    by_cases hlt : left < right
    · rw [binary_search_go, dif_pos hlt]
      have hmidr : left + (right - left) / 2 < right := by omega
      have hmidlen : left + (right - left) / 2 < ts.length := by omega
      rw [getD_of_lt ts _ 0 hmidlen]
      by_cases hv : ts.get ⟨left + (right - left) / 2, hmidlen⟩ < t
      · rw [if_pos hv]
        refine ih (left + (right - left) / 2 + 1) right (by omega) (by omega)
          hrlen ?_ hright
        intro j hj
        rcases Nat.lt_or_ge (j : Nat) (left + (right - left) / 2) with hc | hc
        · exact lt_trans (hmono j ⟨left + (right - left) / 2, hmidlen⟩ hc) hv
        · have : (j : Nat) = left + (right - left) / 2 := by omega
          have hje : j = ⟨left + (right - left) / 2, hmidlen⟩ := Fin.ext this
          rw [hje]
          exact hv
      · rw [if_neg hv]
        by_cases hv2 : t < ts.get ⟨left + (right - left) / 2, hmidlen⟩
        · rw [if_pos hv2]
          refine ih left (left + (right - left) / 2) (by omega) (by omega)
            (by omega) hleft ?_
          intro j hj
          rcases Nat.lt_or_ge (left + (right - left) / 2) (j : Nat) with hc | hc
          · exact lt_trans hv2 (hmono ⟨left + (right - left) / 2, hmidlen⟩ j hc)
          · have : (j : Nat) = left + (right - left) / 2 := by omega
            have hje : j = ⟨left + (right - left) / 2, hmidlen⟩ := Fin.ext this
            rw [hje]
            exact hv2
        · rw [if_neg hv2]
          exact ⟨hmidlen, le_antisymm (not_lt.mp hv2) (not_lt.mp hv)⟩
    · rw [binary_search_go, dif_neg hlt]
      exact ⟨by omega, hleft, fun j hj => hright j (by omega)⟩

/-- The `lookup_point` wrapper returns the index of the latest point whose
time is at most the target (the exact match when one exists), or `none` when
every point lies strictly beyond the target. -/
lemma lookup_point_spec (times : List ℚ) (t : ℚ)
    (hp : times.Pairwise (· < ·)) :
    (∃ i, lookup_point times t = some i ∧ ∃ hi : i < times.length,
        times.get ⟨i, hi⟩ ≤ t ∧
        ∀ j : Fin times.length, times.get j ≤ t → times.get j ≤ times.get ⟨i, hi⟩) ∨
    (lookup_point times t = none ∧ ∀ j : Fin times.length, t < times.get j) := by
  have hmono : ∀ i j : Fin times.length, (i : Nat) < (j : Nat) →
      times.get i < times.get j := by
    intro i j hij
    exact List.pairwise_iff_get.mp hp i j (by exact hij)
  have hpost := binary_search_go_post times t hmono times.length 0 times.length
    (by omega) (by omega) le_rfl (by omega) (fun j hj => absurd j.isLt (by omega))
  rw [show binary_search_go times t 0 times.length = binary_search times t from rfl]
    at hpost
  unfold lookup_point
  cases hbs : binary_search times t with
  | ok i =>
    rw [hbs] at hpost
    obtain ⟨hi, hieq⟩ := hpost
    left
    refine ⟨i, rfl, hi, le_of_eq hieq, ?_⟩
    intro j hj
    rcases Nat.lt_or_ge (j : Nat) i with hc | hc
    · exact le_of_lt (hmono j ⟨i, hi⟩ hc)
    · rcases Nat.eq_or_lt_of_le hc with hc2 | hc2
      · have hje : j = ⟨i, hi⟩ := Fin.ext hc2.symm
        rw [hje]
      · exact absurd hj (not_le.mpr (hieq ▸ hmono ⟨i, hi⟩ j hc2))
  | error i =>
    rw [hbs] at hpost
    obtain ⟨hlen, hbelow, habove⟩ := hpost
    cases i with
    | zero =>
      right
      exact ⟨rfl, fun j => habove j (by omega)⟩
    | succ i' =>
      left
      have hi' : i' < times.length := by omega
      refine ⟨i', rfl, hi', le_of_lt (hbelow ⟨i', hi'⟩ (by exact Nat.lt_succ_self i')), ?_⟩
      intro j hj
      rcases Nat.lt_or_ge (j : Nat) i' with hc | hc
      · exact le_of_lt (hmono j ⟨i', hi'⟩ hc)
      · rcases Nat.eq_or_lt_of_le hc with hc2 | hc2
        · have hje : j = ⟨i', hi'⟩ := Fin.ext hc2.symm
          rw [hje]
        · exact absurd hj (not_le.mpr (habove j (by omega)))

/-- Generic form of the two lookups of lib.rs lines 69-95, for any point list
ordered strictly by a time projection. -/
lemma lookup_generic {α : Type} (ps : List α) (f : α → ℚ) (t : ℚ)
    (hp : ps.Pairwise (fun a b => f a < f b)) :
    (∃ i, lookup_point (ps.map f) t = some i ∧ ∃ hi : i < ps.length,
        f (ps.get ⟨i, hi⟩) ≤ t ∧
        ∀ q ∈ ps, f q ≤ t → f q ≤ f (ps.get ⟨i, hi⟩)) ∨
    (lookup_point (ps.map f) t = none ∧ ∀ q ∈ ps, t < f q) := by
  have hp' : (ps.map f).Pairwise (· < ·) := (List.pairwise_map).mpr hp
  rcases lookup_point_spec (ps.map f) t hp' with ⟨i, hsome, hi, hle, hmax⟩ | ⟨hnone, hall⟩
  · left
    have hib : i < ps.length := by
      have := hi
      rwa [List.length_map] at this
    refine ⟨i, hsome, hib, ?_, ?_⟩
    · rwa [List.get_map] at hle
    · intro q hq hqt
      obtain ⟨j, hjq⟩ := List.get_of_mem hq
      have hj' : (j : Nat) < (ps.map f).length := by
        rw [List.length_map]
        exact j.isLt
      have := hmax ⟨j, hj'⟩
        (by rw [List.get_map]; simp only [Fin.val_mk, Fin.eta, hjq]; exact hqt)
      rw [List.get_map, List.get_map] at this
      simp only [Fin.val_mk, Fin.eta, hjq] at this
      exact this
  · right
    refine ⟨hnone, ?_⟩
    intro q hq
    obtain ⟨j, hjq⟩ := List.get_of_mem hq
    have hj' : (j : Nat) < (ps.map f).length := by
      rw [List.length_map]
      exact j.isLt
    have := hall ⟨j, hj'⟩
    rw [List.get_map] at this
    simp only [Fin.val_mk, Fin.eta, hjq] at this
    exact this

/-- C6: for any object time, each of the two lookups (lib.rs lines 69-95)
finds the applicable point by binary search over the time-ordered array:
the latest point with time at most the object time (the exact match when one
exists), or the fixed defaults `beat_length = 1000` / `speed_multiplier = 1`
when no point precedes the object. -/
theorem C6_point_lookup (map : Beatmap) (t : ℚ)
    (hT : map.timing_points.Pairwise (fun a b => a.time < b.time))
    (hD : map.difficulty_points.Pairwise (fun a b => a.time < b.time)) :
    ((∃ p ∈ map.timing_points, p.time ≤ t ∧
        lookup_timing map t = (p.beat_len, p.time) ∧
        ∀ q ∈ map.timing_points, q.time ≤ t → q.time ≤ p.time) ∨
      ((∀ p ∈ map.timing_points, t < p.time) ∧ lookup_timing map t = (1000, 0))) ∧
    ((∃ p ∈ map.difficulty_points, p.time ≤ t ∧
        lookup_difficulty map t = (p.speed_multiplier, p.time) ∧
        ∀ q ∈ map.difficulty_points, q.time ≤ t → q.time ≤ p.time) ∨
      ((∀ p ∈ map.difficulty_points, t < p.time) ∧
        lookup_difficulty map t = (1, 0))) := by
  constructor
  · rcases lookup_generic map.timing_points TimingPoint.time t hT with
      ⟨i, hsome, hi, hle, hmax⟩ | ⟨hnone, hall⟩
    · left
      refine ⟨map.timing_points.get ⟨i, hi⟩, List.get_mem _ _ _, hle, ?_, hmax⟩
      simp only [lookup_timing, hsome]
      rw [getD_of_lt map.timing_points i default hi]
    · right
      refine ⟨hall, ?_⟩
      simp only [lookup_timing, hnone]
  · rcases lookup_generic map.difficulty_points DifficultyPoint.time t hD with
      ⟨i, hsome, hi, hle, hmax⟩ | ⟨hnone, hall⟩
    · left
      refine ⟨map.difficulty_points.get ⟨i, hi⟩, List.get_mem _ _ _, hle, ?_, hmax⟩
      simp only [lookup_difficulty, hsome]
      rw [getD_of_lt map.difficulty_points i default hi]
    · right
      refine ⟨hall, ?_⟩
      simp only [lookup_difficulty, hnone]

/-- A small map exercising both lookup outcomes: one timing point at time 0
and one difficulty point at time 100. -/
def lookup_demo_map : Beatmap :=
  ⟨[], [⟨0, 500⟩], [⟨100, 2⟩], 1, 1, 5, 1⟩

/-- C6 witnessed on `lookup_demo_map` at object time 50: the timing point at
time 0 applies while no difficulty point precedes 50, so the difficulty
default applies. -/
theorem C6_witness :
    ((∃ p ∈ lookup_demo_map.timing_points, p.time ≤ 50 ∧
        lookup_timing lookup_demo_map 50 = (p.beat_len, p.time) ∧
        ∀ q ∈ lookup_demo_map.timing_points, q.time ≤ 50 → q.time ≤ p.time) ∨
      ((∀ p ∈ lookup_demo_map.timing_points, (50:ℚ) < p.time) ∧
        lookup_timing lookup_demo_map 50 = (1000, 0))) ∧
    ((∃ p ∈ lookup_demo_map.difficulty_points, p.time ≤ 50 ∧
        lookup_difficulty lookup_demo_map 50 = (p.speed_multiplier, p.time) ∧
        ∀ q ∈ lookup_demo_map.difficulty_points, q.time ≤ 50 → q.time ≤ p.time) ∨
      ((∀ p ∈ lookup_demo_map.difficulty_points, (50:ℚ) < p.time) ∧
        lookup_difficulty lookup_demo_map 50 = (1, 0))) :=
  C6_point_lookup lookup_demo_map 50 (by simp [lookup_demo_map])
    (by simp [lookup_demo_map])

/-! ## C7: the two-circle end-to-end scenario -/

/-- `Rat.sqrt` (the model of `f32::sqrt`) is positive on positive input. -/
lemma rat_sqrt_pos {q : ℚ} (hq : 0 < q) : 0 < Rat.sqrt q := by
  rw [Rat.sqrt, Rat.mkRat_eq_div]
  apply div_pos
  · have h1 : 0 < q.num := Rat.num_pos.mpr hq
    have h2 : 0 < q.num.toNat := by omega
    have h3 : (0 : ℤ) < Int.sqrt q.num := by
      rw [Int.sqrt]
      exact_mod_cast Nat.sqrt_pos.mpr h2
    exact_mod_cast h3
  · have h4 : 0 < Nat.sqrt q.den := Nat.sqrt_pos.mpr q.den_pos
    exact_mod_cast h4

/-- Closing sections from a zero-strain, zero-peak state keeps the strain and
peak at zero, keeps the other fields, and appends only zero peaks. -/
lemma close_sections_zero (P : Params) (L : ℚ) :
    ∀ (n : Nat) (e t : ℚ) (m : Movement), ⌈(t - e) / L⌉.toNat ≤ n →
    m.current_strain = 0 → m.current_section_peak = 0 →
    (close_sections P m L e t).1.current_strain = 0 ∧
    (close_sections P m L e t).1.current_section_peak = 0 ∧
    (close_sections P m L e t).1.half_catcher_width = m.half_catcher_width ∧
    ∃ k : Nat, (close_sections P m L e t).1.strain_peaks =
      m.strain_peaks ++ List.replicate k 0 := by
  intro n
  induction n with
  | zero =>
    intro e t m hn hs hp
    have hnc : ¬ (0 < L ∧ e < t) := by
      rintro ⟨hL, hlt⟩
      have hx : (0 : ℚ) < (t - e) / L := div_pos (by linarith) hL
      have h1 : (0 : ℤ) < ⌈(t - e) / L⌉ := Int.ceil_pos.mpr hx
      omega
    rw [close_sections, dif_neg hnc]
    exact ⟨hs, hp, rfl, 0, by simp⟩
  | succ n ih =>
    intro e t m hn hs hp
    by_cases hc : 0 < L ∧ e < t
    · rw [close_sections, dif_pos hc]
      have hx : (0 : ℚ) < (t - e) / L := div_pos (by linarith [hc.2]) hc.1
      have h1 : (0 : ℤ) < ⌈(t - e) / L⌉ := Int.ceil_pos.mpr hx
      have hmeas : ⌈(t - (e + L)) / L⌉.toNat ≤ n := by
        have h2 : (t - (e + L)) / L = (t - e) / L - 1 := by
          have hL0 : L ≠ 0 := ne_of_gt hc.1
          field_simp
          ring
        rw [h2, Int.ceil_sub_one]
        omega
      have hs' : ((m.save_current_peak).start_new_section_from P e).current_strain
          = 0 := by
        simp [Movement.save_current_peak, Movement.start_new_section_from, hs]
      have hp' : ((m.save_current_peak).start_new_section_from P e).current_section_peak
          = 0 := by
        simp [Movement.save_current_peak, Movement.start_new_section_from, hs]
      obtain ⟨ha, hb, hw, k, hk⟩ :=
        ih (e + L) t ((m.save_current_peak).start_new_section_from P e) hmeas hs' hp'
      refine ⟨ha, hb, hw.trans rfl, k + 1, ?_⟩
      rw [hk]
      simp [Movement.save_current_peak, Movement.start_new_section_from, hp,
        List.replicate_succ]
    · rw [close_sections, dif_neg hc]
      exact ⟨hs, hp, rfl, 0, by simp⟩

/-- Inserting 0 into a run of zeros extends the run. -/
lemma insert_desc_zero_rep (k : Nat) :
    insert_desc 0 (List.replicate k 0) = List.replicate (k + 1) 0 := by
  cases k with
  | zero => rfl
  | succ k => simp [List.replicate_succ, insert_desc]

/-- Sorting a run of zeros followed by a positive value brings the positive
value to the front. -/
lemma sort_desc_rep_app (b : ℚ) (hb : 0 < b) (k : Nat) :
    sort_desc (List.replicate k 0 ++ [b]) = b :: List.replicate k 0 := by
  induction k with
  | zero => simp [sort_desc, insert_desc]
  | succ k ih =>
    have hsplit : List.replicate (k + 1) (0 : ℚ) ++ [b] =
        0 :: (List.replicate k 0 ++ [b]) := by
      simp [List.replicate_succ]
    have hstep : sort_desc (0 :: (List.replicate k (0:ℚ) ++ [b])) =
        insert_desc 0 (sort_desc (List.replicate k 0 ++ [b])) := rfl
    rw [sort_desc, hsplit, ← sort_desc, hstep, ih]
    have hnb : ¬ b ≤ (0 : ℚ) := not_le.mpr hb
    simp [insert_desc, hnb, insert_desc_zero_rep, List.replicate_succ]

/-- The weighted sum of a run of zeros vanishes. -/
lemma weighted_sum_rep (base : ℚ) (k : Nat) :
    ∀ w : ℚ, weighted_sum base w (List.replicate k 0) = 0 := by
  induction k with
  | zero => intro w; rfl
  | succ k ih =>
    intro w
    simp [List.replicate_succ, weighted_sum, ih]

/-- The final phase applied to a fresh movement state yields a positive
difficulty value as soon as every transition bonus is positive: all closed
sections contribute zero peaks, the one processed transition contributes its
bonus, and the rank-0 weight is 1. -/
lemma final_phase_dv_pos (P : Params) (hb : ∀ h, 0 < P.bonus h)
    (clock_rate L sec_end csv : ℚ) (prev curr : CatchObject) :
    0 < (final_phase P clock_rate L prev curr (Movement.new csv)
      sec_end).difficulty_value P := by
  have hnew_s : (Movement.new csv).current_strain = 0 := rfl
  have hnew_p : (Movement.new csv).current_section_peak = 0 := rfl
  obtain ⟨hs, hp, hw, k, hk⟩ := close_sections_zero P L
    (⌈((DifficultyObject.new curr prev (Movement.new csv).half_catcher_width
      clock_rate).base.time - sec_end) / L⌉.toNat) sec_end
    (DifficultyObject.new curr prev (Movement.new csv).half_catcher_width
      clock_rate).base.time
    (Movement.new csv) le_rfl hnew_s hnew_p
  have hnew_peaks : (Movement.new csv).strain_peaks = [] := rfl
  rw [hnew_peaks] at hk
  set h := DifficultyObject.new curr prev (Movement.new csv).half_catcher_width
    clock_rate with hh
  set m1 := (close_sections P (Movement.new csv) L sec_end h.base.time).1 with hm1
  have hb' : 0 < P.bonus h := hb h
  have hfinal : (final_phase P clock_rate L prev curr (Movement.new csv)
      sec_end).strain_peaks = List.replicate k 0 ++ [P.bonus h] := by
    simp only [final_phase, ← hh, ← hm1, Movement.process, Movement.save_current_peak]
    rw [hs, hp, hk]
    simp [max_eq_left hb'.le]
  have hval : (final_phase P clock_rate L prev curr (Movement.new csv)
      sec_end).difficulty_value P = P.bonus h := by
    rw [Movement.difficulty_value, hfinal, sort_desc_rep_app _ hb' k]
    simp [weighted_sum, weighted_sum_rep]
  rw [hval]
  exact hb'

/-- C7: for any beatmap of exactly 2 circles 500 ms apart at positions one
full catcher width apart, with no modifiers, the computation returns a
rating strictly greater than 0 with `n_fruits = 2`, `n_droplets = 0`,
`max_combo = 2` — for every instantiation of the missing numeric modules
whose per-transition strain bonus is positive (spec section 4.4: the bonus
contains a clamped positive speed term). -/
theorem C7_two_circles (P : Params) (t x cs sv tr : ℚ) (ver : Nat)
    (tps : List TimingPoint) (dps : List DifficultyPoint)
    (hb : ∀ h, 0 < P.bonus h) :
    ∃ r, stars P (two_circle_map t x cs sv tr ver tps dps) noMods = Except.ok r ∧
      0 < r.stars ∧ r.n_fruits = 2 ∧ r.n_droplets = 0 ∧ r.max_combo = 2 := by
  have hbuild : build_objects P (two_circle_map t x cs sv tr ver tps dps) noMods.hr =
      Except.ok ([⟨x, t, none⟩, ⟨x + calculate_catch_width cs, t + 500, none⟩], 2, 0) :=
    rfl
  rw [stars, if_neg (by simp [two_circle_map]), hbuild]
  refine ⟨_, rfl, ?_, rfl, rfl, rfl⟩
  have hdv : 0 < (final_phase P (two_circle_map t x cs sv tr ver tps dps
        |>.attributes_mods noMods).clock_rate
      (SECTION_LENGTH * (two_circle_map t x cs sv tr ver tps dps
        |>.attributes_mods noMods).clock_rate)
      (P.init_hyper_dash (calculate_catch_width (two_circle_map t x cs sv tr ver tps dps
          |>.attributes_mods noMods).cs / 2 / ALLOWED_CATCH_RANGE)
        ⟨x, t, none⟩ ⟨x + calculate_catch_width cs, t + 500, none⟩ 0
        (calculate_catch_width (two_circle_map t x cs sv tr ver tps dps
          |>.attributes_mods noMods).cs / 2 / ALLOWED_CATCH_RANGE)).1
      ⟨x + calculate_catch_width cs, t + 500, none⟩
      (Movement.new (two_circle_map t x cs sv tr ver tps dps
        |>.attributes_mods noMods).cs)
      ((⌈((two_circle_map t x cs sv tr ver tps dps).hit_objects.headD
          default).start_time /
        (SECTION_LENGTH * (two_circle_map t x cs sv tr ver tps dps
          |>.attributes_mods noMods).clock_rate)⌉ : ℚ) *
        (SECTION_LENGTH * (two_circle_map t x cs sv tr ver tps dps
          |>.attributes_mods noMods).clock_rate))).difficulty_value P :=
    final_phase_dv_pos P hb _ _ _ _ _ _
  simp only [DifficultyAttributes.stars]
  exact mul_pos (rat_sqrt_pos hdv) (by norm_num [STAR_SCALING_FACTOR])

/-- C7 witnessed at concrete inputs (start time 0, position 0, cs 5, and the
default instantiation of the missing modules, whose bonus is the constant 1). -/
theorem C7_witness :
    (∀ h, 0 < defaultParams.bonus h) ∧
    ∃ r, stars defaultParams (two_circle_map 0 0 5 1 1 1 [] []) noMods =
        Except.ok r ∧
      0 < r.stars ∧ r.n_fruits = 2 ∧ r.n_droplets = 0 ∧ r.max_combo = 2 :=
  ⟨fun _ => one_pos,
   C7_two_circles defaultParams 0 0 5 1 1 1 [] [] (fun _ => one_pos)⟩

/-! ## C9: fail-fast on shapes with fewer than 2 control points -/

/-- Building a curve from fewer than 2 control points always fails: the
`Linear` arm panics on indexing, the other constructors fail fast per the
spec's MalformedGeometry policy. -/
lemma build_curve_short (pt : PathType) (cps : List Point)
    (hlen : cps.length < 2) :
    ∃ e, build_curve pt cps = Except.error e := by
  have he : effective_path_type pt cps = pt := by
    rw [effective_path_type, if_neg, if_neg]
    · omega
    · rintro ⟨-, hgt⟩
      omega
  rw [build_curve, he]
  cases pt with
  | Linear =>
    match cps, hlen with
    | [], _ => exact ⟨Panic.indexOOB, rfl⟩
    | [p], _ => exact ⟨Panic.indexOOB, rfl⟩
  | Bezier => exact ⟨Panic.tooFewPoints, by rw [Curve.mk_bezier, if_pos hlen]⟩
  | Catmull => exact ⟨Panic.tooFewPoints, by rw [Curve.mk_catmull, if_pos hlen]⟩
  | PerfectCurve => exact ⟨Panic.tooFewPoints, by rw [Curve.mk_perfect, if_pos hlen]⟩

/-- Expanding a slider whose curve has fewer than 2 control points always
fails. -/
lemma expand_slider_short (P : Params) (map : Beatmap) (pos : Point)
    (t pl : ℚ) (r : Nat) (cps : List Point) (pt : PathType)
    (hlen : cps.length < 2) :
    ∃ e, expand_slider P map pos t pl r cps pt = Except.error e := by
  obtain ⟨e, he⟩ := build_curve_short pt cps hlen
  refine ⟨e, ?_⟩
  rw [expand_slider]
  simp [he, bind, Except.bind]

/-- If any hit object in the remaining list is a slider with fewer than 2
control points, the object stream construction fails. -/
lemma build_objects_go_bad (P : Params) (map : Beatmap) (hr : Bool) :
    ∀ (objs : List HitObject) (lp : Option ℚ) (lt : ℚ)
      (acc : List CatchObject) (f d : Nat),
    (∃ ho ∈ objs, ∃ pl r cps pt,
      ho.kind = HitObjectKind.Slider pl r cps pt ∧ cps.length < 2) →
    ∃ e, build_objects_go P map hr objs lp lt acc f d = Except.error e := by
  intro objs
  induction objs with
  | nil =>
    intro lp lt acc f d hbad
    obtain ⟨ho, hmem, -⟩ := hbad
    cases hmem
  | cons h rest ih =>
    intro lp lt acc f d hbad
    obtain ⟨ho, hmem, pl, r, cps, pt, hkind, hlen⟩ := hbad
    rcases List.mem_cons.mp hmem with heq | hmem'
    · subst heq
      simp only [build_objects_go, hkind]
      match cps, hlen with
      | [], _ => exact ⟨Panic.indexOOB, rfl⟩
      | [p], _ =>
        obtain ⟨e, he⟩ := expand_slider_short P map ho.pos ho.start_time pl r [p] pt
          (by norm_num)
        exact ⟨e, by simp [idx, bind, Except.bind, he]⟩
    · cases hk : h.kind with
      | Circle =>
        simp only [build_objects_go, hk]
        exact ih _ _ _ _ _ ⟨ho, hmem', pl, r, cps, pt, hkind, hlen⟩
      | Spinner =>
        simp only [build_objects_go, hk]
        exact ih _ _ _ _ _ ⟨ho, hmem', pl, r, cps, pt, hkind, hlen⟩
      | Hold =>
        simp only [build_objects_go, hk]
        exact ih _ _ _ _ _ ⟨ho, hmem', pl, r, cps, pt, hkind, hlen⟩
      | Slider pl' r' cps' pt' =>
        simp only [build_objects_go, hk]
        cases hA : idx cps' (cps'.length - 1) with
        | error e => exact ⟨e, by simp [hA, bind, Except.bind]⟩
        | ok pA =>
          cases hB : idx cps' 0 with
          | error e => exact ⟨e, by simp [hA, hB, bind, Except.bind]⟩
          | ok pB =>
            cases hC : expand_slider P map h.pos h.start_time pl' r' cps' pt' with
            | error e => exact ⟨e, by simp [hA, hB, hC, bind, Except.bind]⟩
            | ok objs2 =>
              obtain ⟨e, he⟩ := ih _ _ _ _ _ ⟨ho, hmem', pl, r, cps, pt, hkind, hlen⟩
              exact ⟨e, by simp only [hA, hB, hC, bind, Except.bind]; exact he⟩

/-- C9 counterexample: `bad_slider_map` contains a slider whose curve has a
single control point, yet — the map having fewer than 2 hit objects — the
computation returns the zero-valued default instead of failing: the
InsufficientInput short-circuit fires before the geometry is ever touched. -/
theorem C9_counterexample :
    (∃ ho ∈ bad_slider_map.hit_objects, ∃ pl r cps pt,
      ho.kind = HitObjectKind.Slider pl r cps pt ∧ cps.length < 2) ∧
    stars defaultParams bad_slider_map noMods =
      Except.ok DifficultyAttributes.default := by
  constructor
  · exact ⟨⟨⟨0, 0⟩, 0, HitObjectKind.Slider 50 1 [⟨0, 0⟩] PathType.Linear⟩,
      by simp [bad_slider_map], 50, 1, [⟨0, 0⟩], PathType.Linear, rfl, by norm_num⟩
  · rfl

/-- C9 (amended): on any map with at least 2 hit objects, a slider whose
curve has fewer than 2 control points makes the computation fail fast and
propagate the failure (lib.rs lines 63-66, 119-124; spec section 7
MalformedGeometry); maps below 2 hit objects fall under the
InsufficientInput short-circuit instead. -/
theorem C9_amended_thm (P : Params) (map : Beatmap) (mods : Mods)
    (h2 : 2 ≤ map.hit_objects.length)
    (hbad : ∃ ho ∈ map.hit_objects, ∃ pl r cps pt,
      ho.kind = HitObjectKind.Slider pl r cps pt ∧ cps.length < 2) :
    ∃ e, stars P map mods = Except.error e := by
  obtain ⟨e, he⟩ :=
    build_objects_go_bad P map mods.hr map.hit_objects none 0 [] 0 0 hbad
  refine ⟨e, ?_⟩
  rw [stars, if_neg (by omega)]
  have hb : build_objects P map mods.hr = Except.error e := he
  rw [hb]

/-- C9 amended, witnessed on a 2-object map (circle followed by a
one-control-point slider). -/
theorem C9_witness :
    2 ≤ circle_bad_slider_map.hit_objects.length ∧
    ∃ e, stars defaultParams circle_bad_slider_map noMods = Except.error e := by
  refine ⟨by norm_num [circle_bad_slider_map], ?_⟩
  exact C9_amended_thm defaultParams circle_bad_slider_map noMods
    (by norm_num [circle_bad_slider_map])
    ⟨⟨⟨0, 0⟩, 500, HitObjectKind.Slider 50 1 [⟨0, 0⟩] PathType.Linear⟩,
      by simp [circle_bad_slider_map], 50, 1, [⟨0, 0⟩], PathType.Linear, rfl,
      by norm_num⟩

end Fruits
